import Mathlib

/-!
Shallow embedding of the transit-fit step of the OpenTS pipeline
(src/src/tfstep.py), together with theorems settling the frozen claims
about its masking, prior-clamping, per-epoch log-likelihood scoring,
delta-BIC aggregation and report-summary logic.

Modelling conventions:
- machine floats are modelled as exact rationals where the code only
  compares and clamps values (mask logic, prior bounds), and as real
  numbers where logarithms and exponentials appear (likelihoods);
- numpy arrays are modelled as lists, boolean masks as lists of Bool,
  elementwise operations as map and zipWith;
- the external pytransit epoch function supplies the per-observation
  integer epoch index; it enters the embedding as an input list.
-/

/-- Fit mode of a transit-fit step: all transits, even-numbered only, or
odd-numbered only (tfstep.py lines 154-159). -/
inductive Mode where
  | all
  | even
  | odd
deriving DecidableEq

/-- Parity stage of the selection mask (tfstep.py lines 154-159): mode all
keeps every observation, mode even keeps epoch indices with remainder 0
modulo 2, mode odd keeps those with remainder 1. -/
def parityMask (mode : Mode) (epochs : List ℤ) : List Bool :=
  match mode with
  | Mode.all => epochs.map (fun _ => true)
  | Mode.even => epochs.map (fun e => decide (e % 2 = 0))
  | Mode.odd => epochs.map (fun e => decide (e % 2 = 1))

/-- Full selection mask (tfstep.py line 163): the parity mask is further
restricted, elementwise, to observations whose folded phase lies within
4 half-durations of mid-transit. -/
def transitMask (mode : Mode) (epochs : List ℤ) (phases : List ℚ)
    (period duration : ℚ) : List Bool :=
  List.zipWith
    (fun b ph => b && decide (|ph - 0.5 * period| < 4 * 0.5 * duration))
    (parityMask mode epochs) phases

/-- Uniform-prior bounds set on the squared radius ratio for the even and
odd modes (tfstep.py line 184): lower bound max(0.01^2, 0.5 k2med), upper
bound max(0.08^2, min(0.6^2, 2 k2med)), where k2med is the posterior median
of the all-mode fit. -/
def k2PriorBounds (k2med : ℚ) : ℚ × ℚ :=
  (max ((0.01 : ℚ) ^ 2) (0.5 * k2med),
   max ((0.08 : ℚ) ^ 2) (min ((0.6 : ℚ) ^ 2) (2 * k2med)))

/-- Instance state created by TransitFitStep.__init__ (tfstep.py lines
120-146) once the mode assertion has passed: configuration fields plus the
result slots that start out as None. -/
structure TransitFitStepState where
  mode : String
  title : String
  nsamples : ℕ
  exptime : ℚ
  use_opencl : Bool
  use_tqdm : Bool
  lpf : Option Unit
  result : Option Unit
  mask : Option (List Bool)
  time : Option (List ℚ)
  phase : Option (List ℚ)
  fobs : Option (List ℚ)
  fmod : Option (List ℚ)
  ftra : Option (List ℚ)
  dll_epochs : Option (List ℤ)
  dll_values : Option (List ℚ)
  parameters : Option Unit
  period : Option ℚ
  zero_epoch : Option ℚ
  duration : Option ℚ
  depth : Option ℚ

/-- Constructor of a transit-fit step (tfstep.py lines 120-146): the mode
string is asserted to be one of all, even, odd before any field is
assigned; an invalid mode therefore raises with no instance state created,
modelled by the error branch of Except. -/
def TransitFitStep.init (mode title : String) (nsamples : ℕ) (exptime : ℚ)
    (use_opencl use_tqdm : Bool) : Except String TransitFitStepState :=
  if mode = "all" ∨ mode = "even" ∨ mode = "odd" then
    Except.ok
      { mode := mode
        title := title
        nsamples := nsamples
        exptime := exptime
        use_opencl := use_opencl
        use_tqdm := use_tqdm
        lpf := none
        result := none
        mask := none
        time := none
        phase := none
        fobs := none
        fmod := none
        ftra := none
        dll_epochs := none
        dll_values := none
        parameters := none
        period := none
        zero_epoch := none
        duration := none
        depth := none }
  else
    Except.error "assertion failed: mode must be one of all, even, odd"

/-- Parity condition of the spec, stated as a proposition per mode: no
filter for all, remainder 0 for even, remainder 1 for odd. -/
def keepsParityFilter : Mode → ℤ → Prop
  | Mode.all, _ => True
  | Mode.even, e => e % 2 = 0
  | Mode.odd, e => e % 2 = 1

theorem parityMask_length (mode : Mode) (epochs : List ℤ) :
    (parityMask mode epochs).length = epochs.length := by
  cases mode <;> simp [parityMask]

theorem transitMask_all_getElem (epochs : List ℤ) (phases : List ℚ)
    (period duration : ℚ) (i : ℕ) (h1 : i < epochs.length)
    (h2 : i < phases.length)
    (hm : i < (transitMask Mode.all epochs phases period duration).length) :
    (transitMask Mode.all epochs phases period duration)[i] =
      decide (|phases[i] - 0.5 * period| < 4 * 0.5 * duration) := by
  simp [transitMask, parityMask, List.getElem_zipWith]

theorem transitMask_even_getElem (epochs : List ℤ) (phases : List ℚ)
    (period duration : ℚ) (i : ℕ) (h1 : i < epochs.length)
    (h2 : i < phases.length)
    (hm : i < (transitMask Mode.even epochs phases period duration).length) :
    (transitMask Mode.even epochs phases period duration)[i] =
      (decide (epochs[i] % 2 = 0) &&
        decide (|phases[i] - 0.5 * period| < 4 * 0.5 * duration)) := by
  simp [transitMask, parityMask, List.getElem_zipWith]

theorem transitMask_odd_getElem (epochs : List ℤ) (phases : List ℚ)
    (period duration : ℚ) (i : ℕ) (h1 : i < epochs.length)
    (h2 : i < phases.length)
    (hm : i < (transitMask Mode.odd epochs phases period duration).length) :
    (transitMask Mode.odd epochs phases period duration)[i] =
      (decide (epochs[i] % 2 = 1) &&
        decide (|phases[i] - 0.5 * period| < 4 * 0.5 * duration)) := by
  simp [transitMask, parityMask, List.getElem_zipWith]

/-- C3: an observation is retained by the selection mask exactly when it
passes the parity filter of the mode (no filter for all, epoch index even
for even, odd for odd) and its folded phase lies within 4 half-durations
of mid-transit. -/
theorem transitMask_keeps_iff (mode : Mode) (epochs : List ℤ)
    (phases : List ℚ) (period duration : ℚ) (i : ℕ)
    (h1 : i < epochs.length) (h2 : i < phases.length)
    (hm : i < (transitMask mode epochs phases period duration).length) :
    (transitMask mode epochs phases period duration)[i] = true ↔
      keepsParityFilter mode epochs[i] ∧
        |phases[i] - 0.5 * period| < 4 * 0.5 * duration := by
  cases mode
  · rw [transitMask_all_getElem epochs phases period duration i h1 h2 hm]
    simp [keepsParityFilter]
  · rw [transitMask_even_getElem epochs phases period duration i h1 h2 hm]
    simp [keepsParityFilter]
  · rw [transitMask_odd_getElem epochs phases period duration i h1 h2 hm]
    simp [keepsParityFilter]

/-- C3 witness: a concrete odd-epoch observation near mid-transit. -/
theorem transitMask_keeps_iff_witness :
    0 < ([(3 : ℤ)]).length ∧ 0 < ([(0.5 : ℚ)]).length ∧
      0 < (transitMask Mode.odd [(3 : ℤ)] [(0.5 : ℚ)] 1 1).length ∧
      ((transitMask Mode.odd [(3 : ℤ)] [(0.5 : ℚ)] 1 1)[0] = true ↔
        keepsParityFilter Mode.odd ([(3 : ℤ)])[0] ∧
          |([(0.5 : ℚ)])[0] - 0.5 * 1| < 4 * 0.5 * 1) :=
  ⟨by decide, by decide, by decide,
    transitMask_keeps_iff Mode.odd [(3 : ℤ)] [(0.5 : ℚ)] 1 1 0
      (by decide) (by decide) (by decide)⟩

/-- C4: for a fixed dataset the even and odd masks are disjoint and both
are contained in the all mask. -/
theorem transitMask_partition (epochs : List ℤ) (phases : List ℚ)
    (period duration : ℚ) (i : ℕ) (h1 : i < epochs.length)
    (h2 : i < phases.length)
    (ha : i < (transitMask Mode.all epochs phases period duration).length)
    (he : i < (transitMask Mode.even epochs phases period duration).length)
    (ho : i < (transitMask Mode.odd epochs phases period duration).length) :
    (((transitMask Mode.even epochs phases period duration)[i] = true ∨
        (transitMask Mode.odd epochs phases period duration)[i] = true) →
      (transitMask Mode.all epochs phases period duration)[i] = true) ∧
      ¬((transitMask Mode.even epochs phases period duration)[i] = true ∧
        (transitMask Mode.odd epochs phases period duration)[i] = true) := by
  rw [transitMask_all_getElem epochs phases period duration i h1 h2 ha,
    transitMask_even_getElem epochs phases period duration i h1 h2 he,
    transitMask_odd_getElem epochs phases period duration i h1 h2 ho]
  constructor
  · rintro (h | h) <;> simp_all
  · rintro ⟨hev, hod⟩
    simp only [Bool.and_eq_true, decide_eq_true_eq] at hev hod
    omega

/-- C4 witness: a concrete even-epoch observation near mid-transit. -/
theorem transitMask_partition_witness :
    0 < ([(2 : ℤ)]).length ∧ 0 < ([(0.5 : ℚ)]).length ∧
      0 < (transitMask Mode.all [(2 : ℤ)] [(0.5 : ℚ)] 1 1).length ∧
      0 < (transitMask Mode.even [(2 : ℤ)] [(0.5 : ℚ)] 1 1).length ∧
      0 < (transitMask Mode.odd [(2 : ℤ)] [(0.5 : ℚ)] 1 1).length ∧
      ((((transitMask Mode.even [(2 : ℤ)] [(0.5 : ℚ)] 1 1)[0] = true ∨
          (transitMask Mode.odd [(2 : ℤ)] [(0.5 : ℚ)] 1 1)[0] = true) →
        (transitMask Mode.all [(2 : ℤ)] [(0.5 : ℚ)] 1 1)[0] = true) ∧
        ¬((transitMask Mode.even [(2 : ℤ)] [(0.5 : ℚ)] 1 1)[0] = true ∧
          (transitMask Mode.odd [(2 : ℤ)] [(0.5 : ℚ)] 1 1)[0] = true)) :=
  ⟨by decide, by decide, by decide, by decide, by decide,
    transitMask_partition [(2 : ℤ)] [(0.5 : ℚ)] 1 1 0
      (by decide) (by decide) (by decide) (by decide) (by decide)⟩

/-- C6 counterexample: at the reference median k2med = 1 the clamped
bounds are (0.5, 0.36), an inverted interval, so the claimed minimum
width of 0.08 squared fails (the full claimed conjunction is false). -/
theorem k2PriorBounds_claim_cex :
    ¬((0.01 : ℚ) ^ 2 ≤ (k2PriorBounds 1).1 ∧
      (k2PriorBounds 1).2 ≤ (0.6 : ℚ) ^ 2 ∧
      (0.08 : ℚ) ^ 2 ≤ (k2PriorBounds 1).2 - (k2PriorBounds 1).1) := by
  norm_num [k2PriorBounds, max_def, min_def]

/-- C6 amended: the clamps guarantee lower bound at least 0.01 squared,
upper bound at most 0.6 squared, and upper bound at least 0.08 squared;
they do not guarantee a minimum interval width, and the bounds can invert
for extreme reference medians. -/
theorem k2PriorBounds_clamped (k2med : ℚ) :
    (0.01 : ℚ) ^ 2 ≤ (k2PriorBounds k2med).1 ∧
      (k2PriorBounds k2med).2 ≤ (0.6 : ℚ) ^ 2 ∧
      (0.08 : ℚ) ^ 2 ≤ (k2PriorBounds k2med).2 :=
  ⟨le_max_left _ _,
    max_le (by norm_num) (min_le_left _ _),
    le_max_left _ _⟩

/-- C9: constructing a TransitFitStep succeeds exactly when the mode
string is one of all, even, odd; any other mode yields the error branch,
which carries no instance state. -/
theorem TransitFitStep.init_isOk_iff (mode title : String) (nsamples : ℕ)
    (exptime : ℚ) (use_opencl use_tqdm : Bool) :
    (TransitFitStep.init mode title nsamples exptime use_opencl
        use_tqdm).isOk = true ↔
      mode = "all" ∨ mode = "even" ∨ mode = "odd" := by
  unfold TransitFitStep.init
  split
  · simpa [Except.isOk, Except.toBool]
  · exact iff_of_false (by simp [Except.isOk, Except.toBool]) (by assumption)

/-- Gaussian log likelihood used by the per-orbit scoring loop (tfstep.py
lines 214-216): minus n log err, minus half n log 2 pi, minus half the sum
of squared residuals over squared err, with n the number of points. The
model values enter as a list; the flat-baseline call broadcasts the scalar
1.0 over the n points, modelled by List.replicate. -/
noncomputable def lnlike_normal (o m : List ℝ) (e : ℝ) : ℝ :=
  -(o.length : ℝ) * Real.log e - 0.5 * (o.length : ℝ) * Real.log (2 * Real.pi)
    - 0.5 * (List.zipWith (fun oi mi => (oi - mi) ^ 2 / e ^ 2) o m).sum

/-- Spec formula for the per-epoch Gaussian log likelihood, written from
the spec sentence for the refinement comparison: LL(o,m,e) equals minus
n log e minus 0.5 n log 2 pi minus 0.5 times the sum of (o-m) squared over
e squared. -/
noncomputable def LL_spec (o m : List ℝ) (e : ℝ) : ℝ :=
  -(o.length : ℝ) * Real.log e - 0.5 * (o.length : ℝ) * Real.log (2 * Real.pi)
    - 0.5 * (List.zipWith (fun oi mi => (oi - mi) ^ 2 / e ^ 2) o m).sum

/-- Observations of a masked dataset, one triple per retained point:
epoch index, observed flux, posterior-median model flux. -/
abbrev FitPoints := List (ℤ × ℝ × ℝ)

/-- Points of one epoch: the boolean mask epochs == e of tfstep.py
line 219 applied to the retained points. -/
def epochPoints (pts : FitPoints) (e : ℤ) : FitPoints :=
  pts.filter (fun p => decide (p.1 = e))

/-- Observed fluxes restricted to epoch e (fobs[m] at tfstep.py
line 220). -/
def epochObs (pts : FitPoints) (e : ℤ) : List ℝ :=
  (epochPoints pts e).map (fun p => p.2.1)

/-- Model fluxes restricted to epoch e (fmod[m] at tfstep.py line 220). -/
def epochMod (pts : FitPoints) (e : ℤ) : List ℝ :=
  (epochPoints pts e).map (fun p => p.2.2)

/-- Per-epoch delta log likelihood (tfstep.py line 220): log likelihood of
the observed flux under the model minus under the flat baseline 1.0, both
with the shared scalar noise err. -/
noncomputable def epochDll (pts : FitPoints) (err : ℝ) (e : ℤ) : ℝ :=
  lnlike_normal (epochObs pts e) (epochMod pts e) err
    - lnlike_normal (epochObs pts e)
        (List.replicate (epochObs pts e).length 1) err

/-- Sorted distinct epoch indices (numpy unique at tfstep.py line 210). -/
def uniqueEpochs (es : List ℤ) : List ℤ :=
  List.insertionSort (· ≤ ·) es.dedup

/-- Per-epoch score table of tfstep.py lines 210-224: one (epoch, dll)
entry per unique epoch present in the masked data. -/
noncomputable def dllTable (pts : FitPoints) (err : ℝ) : List (ℤ × ℝ) :=
  (uniqueEpochs (pts.map Prod.fst)).map (fun e => (e, epochDll pts err e))

/-- Delta-BIC helper (tfstep.py lines 54-55): dll plus half of (d1 - d2)
times the log of n. -/
noncomputable def delta_bic (dll d1 d2 n : ℝ) : ℝ :=
  dll + 0.5 * (d1 - d2) * Real.log n

/-- Aggregate delta-BIC score stored by the all-mode fit (tfstep.py
line 232): delta_bic applied to the summed per-epoch dll values with
arguments d1 = 0, d2 = 9 and n the retained observation count. -/
noncomputable def aggregateDeltaBic (pts : FitPoints) (err : ℝ) : ℝ :=
  delta_bic (((uniqueEpochs (pts.map Prod.fst)).map (epochDll pts err)).sum)
    0 9 (pts.length : ℝ)

/-- Maximum of a list of dll values (numpy max at tfstep.py line 278);
the code only evaluates it on nonempty lists. -/
noncomputable def listMax (S : List ℝ) : ℝ :=
  S.foldl max (S.headD 0)

/-- Numerically stable mean delta log likelihood written to the report
(tfstep.py lines 278-279): log of the mean of exp(dll - max) plus max. -/
noncomputable def stableMeanDll (S : List ℝ) : ℝ :=
  Real.log (((S.map (fun x => Real.exp (x - listMax S))).sum) /
    (S.length : ℝ)) + listMax S

/-- Closed-form value the stable summary should equal over exact reals:
log of the mean of exp(dll). -/
noncomputable def meanLogLikeClosedForm (S : List ℝ) : ℝ :=
  Real.log (((S.map Real.exp).sum) / (S.length : ℝ))

/-- Dll values of the epochs with even epoch index, read off the per-epoch
table by the parity mask ep % 2 == 0 of tfstep.py line 281. -/
def evenEpochDlls (ep : List ℤ) (ll : List ℝ) : List ℝ :=
  ((ep.zip ll).filter (fun q => decide (q.1 % 2 = 0))).map Prod.snd

/-- Dll values of the epochs with odd epoch index, read off the per-epoch
table by the parity mask ep % 2 != 0 of tfstep.py line 285. -/
def oddEpochDlls (ep : List ℤ) (ll : List ℝ) : List ℝ :=
  ((ep.zip ll).filter (fun q => decide (¬q.1 % 2 = 0))).map Prod.snd

/-- One FITS header card of the report: keyword, numeric value and
human-readable comment. -/
structure FitsCard where
  key : String
  value : ℝ
  comment : String

/-- First letter of the mode name, used as the keyword tag (self.mode[0]
at tfstep.py line 239). -/
def modeChar : Mode → String
  | Mode.all => "a"
  | Mode.even => "e"
  | Mode.odd => "o"

/-- Mean-dll summary cards appended by add_to_fits (tfstep.py lines
275-288): the overall stable mean for every mode, plus, in all mode only,
the two parity-split stable means. -/
noncomputable def dllSummaryCards (mode : Mode) (ep : List ℤ)
    (ll : List ℝ) : List FitsCard :=
  let c := modeChar mode
  let first : FitsCard :=
    ⟨"TF" ++ c ++ "_DLLA", stableMeanDll ll,
      "Mean per-orbit delta log likelihood"⟩
  if mode = Mode.all then
    [first,
     ⟨"TFA_DLLO", stableMeanDll (evenEpochDlls ep ll),
       "Mean per-orbit delta log likelihood (odd)"⟩,
     ⟨"TFA_DLLE", stableMeanDll (oddEpochDlls ep ll),
       "Mean per-orbit delta log likelihood (even)"⟩]
  else [first]

theorem mem_uniqueEpochs (es : List ℤ) (e : ℤ) :
    e ∈ uniqueEpochs es ↔ e ∈ es := by
  unfold uniqueEpochs
  rw [(List.perm_insertionSort _ _).mem_iff, List.mem_dedup]

/-- C2: for every epoch present in the masked data, the per-epoch table
stores exactly the spec value LL(o, m) - LL(o, flat 1), where o and m are
the observed and model fluxes restricted to that epoch, the noise is the
shared scalar err, and LL is the spec Gaussian log-likelihood formula. -/
theorem dllTable_entry_eq_spec (pts : FitPoints) (err : ℝ) (e : ℤ)
    (he : e ∈ pts.map Prod.fst) :
    (e, LL_spec (epochObs pts e) (epochMod pts e) err
        - LL_spec (epochObs pts e)
            (List.replicate (epochObs pts e).length 1) err) ∈
      dllTable pts err := by
  have hmem : e ∈ uniqueEpochs (pts.map Prod.fst) :=
    (mem_uniqueEpochs _ _).mpr he
  exact List.mem_map.mpr ⟨e, hmem, rfl⟩

/-- C2 witness: a one-point dataset at epoch 0. -/
theorem dllTable_entry_eq_spec_witness :
    (0 : ℤ) ∈ ([((0 : ℤ), (2 : ℝ), (1 : ℝ))] : FitPoints).map Prod.fst ∧
      ((0 : ℤ), LL_spec (epochObs [((0 : ℤ), (2 : ℝ), (1 : ℝ))] 0)
          (epochMod [((0 : ℤ), (2 : ℝ), (1 : ℝ))] 0) 1
        - LL_spec (epochObs [((0 : ℤ), (2 : ℝ), (1 : ℝ))] 0)
            (List.replicate
              (epochObs [((0 : ℤ), (2 : ℝ), (1 : ℝ))] 0).length 1) 1) ∈
        dllTable [((0 : ℤ), (2 : ℝ), (1 : ℝ))] 1 :=
  ⟨by simp, dllTable_entry_eq_spec _ _ _ (by simp)⟩

theorem zipWith_self_residuals_sum (l : List ℝ) (err : ℝ) :
    (List.zipWith (fun oi mi => (oi - mi) ^ 2 / err ^ 2) l l).sum = 0 := by
  induction l with
  | nil => simp
  | cons a t ih => simp [ih]

theorem zipWith_replicate_ones (l : List ℝ) (err : ℝ) :
    (List.zipWith (fun oi mi => (oi - mi) ^ 2 / err ^ 2) l
        (List.replicate l.length 1)).sum =
      (l.map (fun a => (a - 1) ^ 2 / err ^ 2)).sum := by
  induction l with
  | nil => simp
  | cons a t ih => simp [List.replicate_succ, ih]

theorem list_sum_pos_of_mem (l : List ℝ) (hnn : ∀ x ∈ l, 0 ≤ x)
    (hex : ∃ x ∈ l, 0 < x) : 0 < l.sum := by
  induction l with
  | nil => simp at hex
  | cons a t ih =>
    rcases hex with ⟨x, hx, hxpos⟩
    rcases List.mem_cons.mp hx with h | h
    · subst h
      have ht : 0 ≤ t.sum :=
        List.sum_nonneg (fun y hy => hnn y (List.mem_cons_of_mem _ hy))
      simpa using add_pos_of_pos_of_nonneg hxpos ht
    · have ht := ih (fun y hy => hnn y (List.mem_cons_of_mem _ hy)) ⟨x, h, hxpos⟩
      have ha := hnn a (List.mem_cons_self _ _)
      simpa using add_pos_of_nonneg_of_pos ha ht

/-- C8: when the model flux equals the observed flux at every point of an
epoch, the noise is positive, and at least one observed value differs from
the flat baseline 1, the per-epoch delta log likelihood is strictly
positive. -/
theorem epochDll_pos_of_perfect_fit (pts : FitPoints) (err : ℝ) (e : ℤ)
    (herr : 0 < err)
    (hfit : ∀ p ∈ pts, p.1 = e → p.2.1 = p.2.2)
    (hsig : ∃ p ∈ pts, p.1 = e ∧ p.2.1 ≠ 1) :
    0 < epochDll pts err e := by
  have hmm : epochMod pts e = epochObs pts e := by
    unfold epochMod epochObs
    refine List.map_congr_left ?_
    intro p hp
    have hp2 := List.mem_filter.mp hp
    exact (hfit p hp2.1 (by simpa using hp2.2)).symm
  have hT : 0 < ((epochObs pts e).map
      (fun a => (a - 1) ^ 2 / err ^ 2)).sum := by
    apply list_sum_pos_of_mem
    · intro x hx
      rcases List.mem_map.mp hx with ⟨a, _, rfl⟩
      positivity
    · rcases hsig with ⟨p, hp, hpe, hp1⟩
      refine ⟨(p.2.1 - 1) ^ 2 / err ^ 2, ?_, ?_⟩
      · have hpp : p ∈ epochPoints pts e :=
          List.mem_filter.mpr ⟨hp, by simpa using hpe⟩
        have hobs : p.2.1 ∈ epochObs pts e :=
          List.mem_map.mpr ⟨p, hpp, rfl⟩
        exact List.mem_map.mpr ⟨p.2.1, hobs, rfl⟩
      · have h1 : 0 < (p.2.1 - 1) ^ 2 :=
          lt_of_le_of_ne (sq_nonneg _)
            (Ne.symm (pow_ne_zero 2 (sub_ne_zero.mpr hp1)))
        exact div_pos h1 (pow_pos herr 2)
  unfold epochDll lnlike_normal
  rw [hmm, zipWith_self_residuals_sum, zipWith_replicate_ones]
  linarith

/-- C8 witness: one point at epoch 0 with observed and model flux 2. -/
theorem epochDll_pos_of_perfect_fit_witness :
    (0 : ℝ) < 1 ∧
      (∀ p ∈ ([((0 : ℤ), (2 : ℝ), (2 : ℝ))] : FitPoints),
        p.1 = 0 → p.2.1 = p.2.2) ∧
      (∃ p ∈ ([((0 : ℤ), (2 : ℝ), (2 : ℝ))] : FitPoints),
        p.1 = 0 ∧ p.2.1 ≠ 1) ∧
      0 < epochDll [((0 : ℤ), (2 : ℝ), (2 : ℝ))] 1 0 := by
  have hfit : ∀ p ∈ ([((0 : ℤ), (2 : ℝ), (2 : ℝ))] : FitPoints),
      p.1 = 0 → p.2.1 = p.2.2 := by
    intro p hp _
    rw [List.mem_singleton] at hp
    subst hp
    rfl
  have hsig : ∃ p ∈ ([((0 : ℤ), (2 : ℝ), (2 : ℝ))] : FitPoints),
      p.1 = 0 ∧ p.2.1 ≠ 1 :=
    ⟨((0 : ℤ), (2 : ℝ), (2 : ℝ)), List.mem_singleton_self _, rfl,
      by norm_num⟩
  exact ⟨one_pos, hfit, hsig,
    epochDll_pos_of_perfect_fit _ _ _ one_pos hfit hsig⟩

theorem sum_map_exp_sub (S : List ℝ) (c : ℝ) :
    (S.map (fun x => Real.exp (x - c))).sum =
      (S.map Real.exp).sum * Real.exp (-c) := by
  induction S with
  | nil => simp
  | cons a t ih =>
    simp only [List.map_cons, List.sum_cons, ih]
    rw [Real.exp_sub, Real.exp_neg]
    ring

theorem sum_map_exp_pos (S : List ℝ) (h : S ≠ []) :
    0 < (S.map Real.exp).sum := by
  apply List.sum_pos
  · intro x hx
    rcases List.mem_map.mp hx with ⟨a, _, rfl⟩
    exact Real.exp_pos a
  · simpa using h

/-- C5: over exact reals the numerically stable summary, log of the mean
of exp(dll - max) plus max, equals the closed form log of the mean of
exp(dll), for every nonempty list of dll values; in particular for the
full per-epoch list and for each parity sublist of the all mode. -/
theorem stableMeanDll_eq_closedForm (S : List ℝ) (h : S ≠ []) :
    stableMeanDll S = meanLogLikeClosedForm S := by
  unfold stableMeanDll meanLogLikeClosedForm
  rw [sum_map_exp_sub]
  have hn : (0 : ℝ) < (S.length : ℝ) := by
    exact_mod_cast List.length_pos.mpr h
  have hs : 0 < (S.map Real.exp).sum := sum_map_exp_pos S h
  have hrw : (S.map Real.exp).sum * Real.exp (-listMax S) / (S.length : ℝ)
      = ((S.map Real.exp).sum / (S.length : ℝ)) * Real.exp (-listMax S) := by
    ring
  rw [hrw, Real.log_mul (div_pos hs hn).ne' (Real.exp_ne_zero _),
    Real.log_exp]
  ring

/-- C5 witness: the singleton list of dll values. -/
theorem stableMeanDll_eq_closedForm_witness :
    (([(0 : ℝ)] : List ℝ) ≠ []) ∧
      stableMeanDll [(0 : ℝ)] = meanLogLikeClosedForm [(0 : ℝ)] :=
  ⟨List.cons_ne_nil _ _, stableMeanDll_eq_closedForm _ (List.cons_ne_nil _ _)⟩

/-- C1 counterexample: on a two-point dataset with zero summed dll the
aggregate score is minus 4.5 log 2, not plus 4.5 log 2 as the claim
formula sum + 0.5 (k_transit - k_flat) log N with k_transit = 9,
k_flat = 0 demands: the call site passes the parameter counts as
delta_bic(sum, 0, 9, N), so the penalty enters with the opposite sign. -/
theorem aggregateDeltaBic_claim_cex :
    aggregateDeltaBic [((0 : ℤ), (1 : ℝ), (1 : ℝ)),
        ((0 : ℤ), (1 : ℝ), (1 : ℝ))] 1 ≠
      ((dllTable [((0 : ℤ), (1 : ℝ), (1 : ℝ)),
          ((0 : ℤ), (1 : ℝ), (1 : ℝ))] 1).map Prod.snd).sum +
        0.5 * ((9 : ℝ) - 0) * Real.log
          ((([((0 : ℤ), (1 : ℝ), (1 : ℝ)),
            ((0 : ℤ), (1 : ℝ), (1 : ℝ))] : FitPoints).length : ℝ)) := by
  have hd : epochDll [((0 : ℤ), (1 : ℝ), (1 : ℝ)),
      ((0 : ℤ), (1 : ℝ), (1 : ℝ))] 1 0 = 0 :=
    sub_self (lnlike_normal [(1 : ℝ), 1] [(1 : ℝ), 1] 1)
  have hu : uniqueEpochs (([((0 : ℤ), (1 : ℝ), (1 : ℝ)),
      ((0 : ℤ), (1 : ℝ), (1 : ℝ))] : FitPoints).map Prod.fst) = [0] := by
    decide
  unfold aggregateDeltaBic delta_bic dllTable
  rw [hu]
  simp only [List.map_cons, List.map_nil, List.sum_cons, List.sum_nil, hd,
    List.length_cons, List.length_nil]
  have hl : 0 < Real.log 2 := Real.log_pos (by norm_num)
  intro hcontra
  norm_num at hcontra
  nlinarith [hl, hcontra]

/-- C1 amended: the aggregate delta-BIC score equals the sum of the
stored per-epoch delta log likelihoods plus 0.5 (k_flat - k_transit)
log N, that is sum minus 4.5 log N, with k_transit = 9, k_flat = 0 and N
the retained observation count: the code passes the flat-model count as
the first parameter-count argument of delta_bic. -/
theorem aggregateDeltaBic_eq (pts : FitPoints) (err : ℝ) :
    aggregateDeltaBic pts err =
      ((dllTable pts err).map Prod.snd).sum +
        0.5 * ((0 : ℝ) - 9) * Real.log (pts.length : ℝ) := by
  unfold aggregateDeltaBic delta_bic dllTable
  rw [List.map_map]
  rfl

/-- C7 counterexample: with zero summed dll and the call-site parameter
counts (0, 9), the aggregate score does not grow from N = 1 to N = 2,
refuting monotone increase in N. -/
theorem delta_bic_increasing_cex :
    ¬(delta_bic 0 0 9 1 < delta_bic 0 0 9 2) := by
  unfold delta_bic
  rw [Real.log_one]
  have hl : 0 < Real.log 2 := Real.log_pos (by norm_num)
  intro h
  nlinarith [hl, h]

/-- C7 amended: holding the summed dll fixed and using the call-site
parameter counts d1 = 0, d2 = 9, the aggregate delta-BIC score is
strictly decreasing in the retained observation count N, for every
N' above N at least 1. -/
theorem delta_bic_decreasing_in_n (S : ℝ) (N M : ℕ) (h1 : 1 ≤ N)
    (h2 : N < M) :
    delta_bic S 0 9 (M : ℝ) < delta_bic S 0 9 (N : ℝ) := by
  unfold delta_bic
  have hN : (0 : ℝ) < (N : ℝ) := by exact_mod_cast h1
  have hM : (N : ℝ) < (M : ℝ) := by exact_mod_cast h2
  have hlog : Real.log (N : ℝ) < Real.log (M : ℝ) := Real.log_lt_log hN hM
  nlinarith [hlog]

/-- C7 witness: N = 1 and N' = 2 with summed dll 0. -/
theorem delta_bic_decreasing_in_n_witness :
    1 ≤ 1 ∧ 1 < 2 ∧
      delta_bic 0 0 9 ((2 : ℕ) : ℝ) < delta_bic 0 0 9 ((1 : ℕ) : ℝ) :=
  ⟨le_refl 1, by norm_num,
    delta_bic_decreasing_in_n 0 1 2 (le_refl 1) (by norm_num)⟩

/-- C10: in the all mode the summary card keyed TFA_DLLO and described as
the odd split carries the stable mean over the epochs whose index is even
(ep % 2 == 0), while the card keyed TFA_DLLE and described as the even
split carries the stable mean over the epochs whose index is odd. -/
theorem dllSummaryCards_parity_swap (ep : List ℤ) (ll : List ℝ) :
    (dllSummaryCards Mode.all ep ll)[1]? =
        some ⟨"TFA_DLLO", stableMeanDll (evenEpochDlls ep ll),
          "Mean per-orbit delta log likelihood (odd)"⟩ ∧
      (dllSummaryCards Mode.all ep ll)[2]? =
        some ⟨"TFA_DLLE", stableMeanDll (oddEpochDlls ep ll),
          "Mean per-orbit delta log likelihood (even)"⟩ :=
  ⟨rfl, rfl⟩
